import Mathlib

/-!
Verification of the request-serving core of the easyp secure static-content
server, following the Rust sources under `src/src/modules/`.

Modelling conventions (shallow embedding):
* Rust `String`/`&str`/`OsStr`/`Vec<u8>` values are modelled as `List Nat`
  holding their UTF-8 byte values; formatting (`format!`) is byte-list
  concatenation, and `u64`/`usize`/`u16` are `Nat`, `i64` is `Int`.
  Checks the source performs on characters that are ASCII in every case the
  source compares against (`'/'`, `'.'`, `'"'`, `'%'`, digits) are performed
  on the corresponding bytes, which coincides with the source's `char`-level
  behaviour on valid UTF-8 input.  `to_lowercase` is modelled by its ASCII
  case mapping.
* `std::collections::HashMap<String, String>` (the response header map) is
  modelled as an association list with unique keys; the list order stands for
  the map's iteration order, which for the Rust `HashMap` is unspecified and
  seed-randomized, so any statement about the bytes `encode` emits must hold
  for every order of the entries (and a statement true only for the insertion
  order is not guaranteed by the source).
* Filesystem interaction (`fs::canonicalize`, `exists`, `is_file`,
  `fs::metadata`) is modelled by an explicit oracle structure `Fs` passed to
  the functions that consult it; the pure decision logic is translated
  literally from the source.
-/

namespace EasyP

/-- UTF-8/ASCII bytes of a Lean string literal (all literals used are ASCII). -/
def asciiBytes (s : String) : List Nat :=
  s.toList.map Char.toNat

/-- Fuel-driven digit expansion; the fuel only bounds the recursion depth. -/
def decimalBytesAux : Nat → Nat → List Nat
  | 0, _ => []
  | fuel + 1, n => if n < 10 then [48 + n] else decimalBytesAux fuel (n / 10) ++ [48 + n % 10]

/-- Decimal rendering of a nonnegative integer, as `format!("{}", n)` yields. -/
def decimalBytes (n : Nat) : List Nat :=
  decimalBytesAux (n + 1) n

/-- Equality instance for `Except` results, used to state concrete runs. -/
instance {ε α : Type} [DecidableEq ε] [DecidableEq α] : DecidableEq (Except ε α) := fun x y =>
  match x, y with
  | .ok a, .ok b =>
    if h : a = b then isTrue (by rw [h]) else isFalse (by intro hh; cases hh; exact h rfl)
  | .error e, .error f =>
    if h : e = f then isTrue (by rw [h]) else isFalse (by intro hh; cases hh; exact h rfl)
  | .ok _, .error _ => isFalse (by intro hh; cases hh)
  | .error _, .ok _ => isFalse (by intro hh; cases hh)

/-- ASCII case-lowering of a byte string, modelling `str::to_lowercase`. -/
def toLowerBytes (s : List Nat) : List Nat :=
  s.map (fun b => if 65 ≤ b ∧ b ≤ 90 then b + 32 else b)

/-- Strip all leading and trailing `'"'` bytes, modelling `trim_matches('"')`. -/
def trimQuotes (s : List Nat) : List Nat :=
  ((s.dropWhile (fun b => b == 34)).reverse.dropWhile (fun b => b == 34)).reverse

/-- ASCII decimal digit test on a byte. -/
def isDigitByte (b : Nat) : Bool :=
  decide (48 ≤ b ∧ b ≤ 57)

/-- Value of a digit string read in base 10. -/
def digitsVal (s : List Nat) : Nat :=
  s.foldl (fun acc b => acc * 10 + (b - 48)) 0

/-- Substring test on byte strings, modelling `str::contains(pat)` for the
ASCII patterns the source uses (a byte-level infix occurrence of an ASCII
pattern coincides with a character-level substring occurrence in UTF-8). -/
def containsSeq (needle hay : List Nat) : Bool :=
  decide (needle <:+: hay)

/-- Model of `str::parse::<u64>()`: an optional leading `'+'`, then one or
more ASCII digits, with the value required to fit in 64 bits. -/
def parseU64 (s : List Nat) : Option Nat :=
  let t := match s with
    | 43 :: rest => rest
    | _ => s
  if t = [] then none
  else if t.all isDigitByte then
    let v := digitsVal t
    if v < 2 ^ 64 then some v else none
  else none

/-! ### modules/http_version.rs -/

/-- The `HttpVersion` enum of `modules/http_version.rs`. -/
inductive HttpVersion where
  | http09
  | http10
  | http11
deriving DecidableEq

/-- Bytes of `HttpVersion::status_line_prefix` from `modules/http_version.rs`. -/
def HttpVersion.statusLinePrefixBytes : HttpVersion → List Nat
  | .http09 => asciiBytes ""
  | .http10 => asciiBytes "HTTP/1.0"
  | .http11 => asciiBytes "HTTP/1.1"

/-! ### modules/http_response.rs -/

/-- Response header map entry list; see the note on `HashMap` modelling above. -/
abbrev Headers := List (List Nat × List Nat)

/-- Map-insert on the association-list view of the header `HashMap`: replace
the value of an existing key, otherwise add the entry. -/
def insertHeader : Headers → List Nat → List Nat → Headers
  | [], k, v => [(k, v)]
  | p :: rest, k, v => if p.1 == k then (k, v) :: rest else p :: insertHeader rest k v

/-- Map lookup (`HashMap::get`) on the association-list view. -/
def lookupHeader (hs : Headers) (k : List Nat) : Option (List Nat) :=
  (hs.find? (fun p => p.1 == k)).map (fun p => p.2)

/-- The `HttpResponse` struct of `modules/http_response.rs`. -/
structure HttpResponse where
  status_code : Nat
  status_text : List Nat
  headers : Headers
  body : List Nat
deriving DecidableEq

namespace HttpResponse

/-- `HttpResponse::new`. -/
def new (status_code : Nat) (status_text : List Nat) (body : List Nat) : HttpResponse :=
  { status_code := status_code, status_text := status_text, headers := [], body := body }

/-- `HttpResponse::ok`. -/
def ok (body : List Nat) : HttpResponse :=
  new 200 (asciiBytes "OK") body

/-- `HttpResponse::set_header`. -/
def set_header (r : HttpResponse) (name value : List Nat) : HttpResponse :=
  { r with headers := insertHeader r.headers name value }

/-- `HttpResponse::set_content_type`. -/
def set_content_type (r : HttpResponse) (content_type : List Nat) : HttpResponse :=
  r.set_header (asciiBytes "Content-Type") content_type

/-- `HttpResponse::set_content_length`. -/
def set_content_length (r : HttpResponse) : HttpResponse :=
  r.set_header (asciiBytes "Content-Length") (decimalBytes r.body.length)

/-- `HttpResponse::set_cache_control`. -/
def set_cache_control (r : HttpResponse) (cache_control : List Nat) : HttpResponse :=
  r.set_header (asciiBytes "Cache-Control") cache_control

/-- `HttpResponse::set_last_modified`. -/
def set_last_modified (r : HttpResponse) (last_modified : List Nat) : HttpResponse :=
  r.set_header (asciiBytes "Last-Modified") last_modified

/-- `HttpResponse::set_etag`. -/
def set_etag (r : HttpResponse) (etag : List Nat) : HttpResponse :=
  r.set_header (asciiBytes "ETag") etag

/-- `HttpResponse::add_caching_headers` (`cache_duration_seconds` is `i64`). -/
def add_caching_headers (r : HttpResponse) (last_modified etag : List Nat)
    (cache_duration_seconds : Int) : HttpResponse :=
  let r := r.set_last_modified last_modified
  let r := r.set_etag etag
  if cache_duration_seconds = -1 then
    r.set_cache_control (asciiBytes "public, max-age=31536000, immutable")
  else if cache_duration_seconds = 0 then
    r.set_cache_control (asciiBytes "no-cache, no-store, must-revalidate")
  else if cache_duration_seconds > 0 then
    r.set_cache_control (asciiBytes "public, max-age=" ++ decimalBytes cache_duration_seconds.toNat)
  else
    r.set_cache_control (asciiBytes "no-cache")

/-- `HttpResponse::add_security_headers`. -/
def add_security_headers (r : HttpResponse) : HttpResponse :=
  let r := r.set_header (asciiBytes "X-Content-Type-Options") (asciiBytes "nosniff")
  let r := r.set_header (asciiBytes "X-Frame-Options") (asciiBytes "DENY")
  let r := r.set_header (asciiBytes "X-XSS-Protection") (asciiBytes "1; mode=block")
  r.set_cache_control (asciiBytes "no-cache")

/-- `HttpResponse::encode`: serialize the response for a version and
keep-alive decision; `r.headers` is carried in the header map's iteration
order (see the modelling note). -/
def encode (r : HttpResponse) (version : HttpVersion) (keep_alive : Bool) : List Nat :=
  if version = .http09 then r.body
  else
    let status_line :=
      version.statusLinePrefixBytes ++ [32] ++ decimalBytes r.status_code ++ [32] ++
        r.status_text ++ [13, 10]
    let header_bytes := (r.headers.map (fun p => p.1 ++ [58, 32] ++ p.2 ++ [13, 10])).flatten
    let conn : List Nat :=
      match version with
      | .http11 => if !keep_alive then asciiBytes "Connection: close\r\n" else []
      | .http10 => if keep_alive then asciiBytes "Connection: Keep-Alive\r\n" else []
      | .http09 => []
    status_line ++ header_bytes ++ conn ++ [13, 10] ++ r.body

end HttpResponse

/-! ### modules/connection_policy.rs -/

/-- The `ConnectionPolicy` struct of `modules/connection_policy.rs`. -/
structure ConnectionPolicy where
  max_requests : Nat
  idle_timeout_seconds : Nat
deriving DecidableEq

/-- `ConnectionPolicy::should_keep_alive`. -/
def ConnectionPolicy.should_keep_alive (p : ConnectionPolicy) (version : HttpVersion)
    (request_connection_header : Option (List Nat)) (response_size request_count : Nat) : Bool :=
  if request_count ≥ p.max_requests then false
  else if response_size > 10 * 1024 * 1024 then false
  else
    match version with
    | .http09 => false
    | .http10 =>
      match request_connection_header with
      | some connection_header =>
        containsSeq (asciiBytes "keep-alive") (toLowerBytes connection_header)
      | none => false
    | .http11 =>
      match request_connection_header with
      | some connection_header =>
        !(containsSeq (asciiBytes "close") (toLowerBytes connection_header))
      | none => true

/-! ### modules/file_cache.rs -/

/-- The `FileCacheInfo` struct of `modules/file_cache.rs`. -/
structure FileCacheInfo where
  last_modified : Nat
  size : Nat
  etag : List Nat
deriving DecidableEq

/-- `FileCacheInfo::from_metadata`, taking the metadata's modification time
(unix seconds) and length; the etag is `format!("\x7b:?\x7d", ...)`-free:
literally `format!("\"{}-{}\"", last_modified, size)`. -/
def FileCacheInfo.from_metadata (last_modified size : Nat) : FileCacheInfo :=
  { last_modified := last_modified
    size := size
    etag := [34] ++ decimalBytes last_modified ++ [45] ++ decimalBytes size ++ [34] }

/-- `FileCacheInfo::get_cache_duration`. -/
def FileCacheInfo.get_cache_duration (content_type : List Nat) : Int :=
  if List.isPrefixOf (asciiBytes "image/") content_type then 31536000
  else if List.isPrefixOf (asciiBytes "text/css") content_type then 31536000
  else if List.isPrefixOf (asciiBytes "application/javascript") content_type then 31536000
  else if List.isPrefixOf (asciiBytes "application/font-") content_type then 31536000
  else if List.isPrefixOf (asciiBytes "font/") content_type then 31536000
  else if List.isPrefixOf (asciiBytes "application/gzip") content_type then 86400
  else if List.isPrefixOf (asciiBytes "application/zip") content_type then 86400
  else if List.isPrefixOf (asciiBytes "application/x-tar") content_type then 86400
  else if List.isPrefixOf (asciiBytes "application/octet-stream") content_type then 86400
  else if List.isPrefixOf (asciiBytes "text/html") content_type then 3600
  else if List.isPrefixOf (asciiBytes "application/json") content_type then 3600
  else if List.isPrefixOf (asciiBytes "application/xml") content_type then 3600
  else if List.isPrefixOf (asciiBytes "text/xml") content_type then 3600
  else 0

/-- The free function `should_return_not_modified` of `modules/file_cache.rs`. -/
def should_return_not_modified (cache_info : FileCacheInfo)
    (if_modified_since if_none_match : Option (List Nat)) : Bool :=
  let etagHit :=
    match if_none_match with
    | some inm => trimQuotes inm == trimQuotes cache_info.etag
    | none => false
  if etagHit then true
  else
    match if_modified_since with
    | some ims =>
      match parseU64 ims with
      | some client_timestamp => decide (cache_info.last_modified ≤ client_timestamp)
      | none => false
    | none => false

/-! ### modules/secure_file_server_module.rs -/

/-- Substring test on character strings, modelling `str::contains(pat)`. -/
def containsStr (needle hay : List Char) : Bool :=
  decide (needle <:+: hay)

/-- `SecureFileServer::is_domain_safe`.  `char::is_alphanumeric` is modelled
by its ASCII case mapping (`Char.isAlphanum`); the claims only compare both
sides of the predicate against the same character test. -/
def is_domain_safe (domain : List Char) : Bool :=
  if !(domain.all (fun c => c.isAlphanum || c == '.')) then false
  else if containsStr ['.', '.'] domain then false
  else if !(domain.contains '.') then false
  else if domain.head? == some '.' || domain.getLast? == some '.' then false
  else if containsStr ['.', '.', '.'] domain then false
  else true

/-- Hex digit test, modelling the urlencoding crate's `from_hex_digit`. -/
def isHexDigit (b : Nat) : Bool :=
  decide ((48 ≤ b ∧ b ≤ 57) ∨ (65 ≤ b ∧ b ≤ 70) ∨ (97 ≤ b ∧ b ≤ 102))

/-- Value of a hex digit byte. -/
def hexVal (b : Nat) : Nat :=
  if b ≤ 57 then b - 48 else if b ≤ 70 then b - 55 else b - 87

/-- Percent-decoding on bytes, modelling `urlencoding::decode_binary`: a `%`
followed by two hex digits decodes to one byte; any other `%` is passed
through verbatim and scanning continues at the next byte (which matches the
crate's handling of half-valid escapes, since a hex digit emitted verbatim
can itself never start an escape). -/
def percentDecodeBytes : List Nat → List Nat
  | [] => []
  | 37 :: h1 :: h2 :: rest =>
    if isHexDigit h1 && isHexDigit h2 then
      (16 * hexVal h1 + hexVal h2) :: percentDecodeBytes rest
    else
      37 :: percentDecodeBytes (h1 :: h2 :: rest)
  | b :: rest => b :: percentDecodeBytes rest

/-- UTF-8 continuation byte test. -/
def isContByte (b : Nat) : Bool :=
  decide (128 ≤ b ∧ b ≤ 191)

/-- Allowed second byte of a 3-byte UTF-8 sequence with lead byte `b`. -/
def utf8Second3 (b c1 : Nat) : Bool :=
  if b = 224 then decide (160 ≤ c1 ∧ c1 ≤ 191)
  else if b = 237 then decide (128 ≤ c1 ∧ c1 ≤ 159)
  else isContByte c1

/-- Allowed second byte of a 4-byte UTF-8 sequence with lead byte `b`. -/
def utf8Second4 (b c1 : Nat) : Bool :=
  if b = 240 then decide (144 ≤ c1 ∧ c1 ≤ 191)
  else if b = 244 then decide (128 ≤ c1 ∧ c1 ≤ 143)
  else isContByte c1

/-- UTF-8 validity of a byte string, modelling the check `String::from_utf8`
performs on the percent-decoded bytes. -/
def utf8Valid : List Nat → Bool
  | [] => true
  | b :: rest =>
    if b < 128 then utf8Valid rest
    else if b < 194 then false
    else if b ≤ 223 then
      match rest with
      | c1 :: r => isContByte c1 && utf8Valid r
      | [] => false
    else if b ≤ 239 then
      match rest with
      | c1 :: c2 :: r => utf8Second3 b c1 && isContByte c2 && utf8Valid r
      | _ => false
    else if b ≤ 244 then
      match rest with
      | c1 :: c2 :: c3 :: r => utf8Second4 b c1 && isContByte c2 && isContByte c3 && utf8Valid r
      | _ => false
    else false

/-- Strip of query string and fragment followed by `urlencoding::decode`:
`none` models the `FromUtf8Error` the `?` operator propagates. -/
def decodeTarget (request_path : List Nat) : Option (List Nat) :=
  let path := request_path.takeWhile (fun b => b ≠ 63)
  let path := path.takeWhile (fun b => b ≠ 35)
  let bs := percentDecodeBytes path
  if utf8Valid bs then some bs else none

/-- A component produced by `Path::components()` on the decoded target
(Unix): `rootDir` for a leading `/`, `curDir` for `.`, `parentDir` for `..`,
and `normal` otherwise. -/
inductive RequestComp where
  | rootDir
  | curDir
  | parentDir
  | normal (bytes : List Nat)
deriving DecidableEq

/-- A component of an accumulated `PathBuf`: the loop in
`sanitize_path_with_root` only ever pushes normal components onto the
document root, so `curDir`/`parentDir` never occur in a stored path. -/
inductive PathComp where
  | rootDir
  | normal (bytes : List Nat)
deriving DecidableEq

/-- A `PathBuf`/`Path` as its component list (`starts_with` and `==` on Rust
paths compare exactly these component lists). -/
abbrev PathB := List PathComp

/-- Model of `Path::components()` on the decoded target.  Deviation without
observable effect: Rust drops a non-leading `.` at `components()` level while
this model emits `curDir` for every `.` piece; the consumer below ignores
`curDir` wherever it occurs, so the two agree on every behaviour of
`sanitize_path_with_root`. -/
def pathComponents (bs : List Nat) : List RequestComp :=
  let pieces := (List.splitOn 47 bs).filter (fun p => p ≠ [])
  let comps := pieces.map (fun p =>
    if p = [46] then RequestComp.curDir
    else if p = [46, 46] then RequestComp.parentDir
    else RequestComp.normal p)
  if bs.head? == some 47 then RequestComp.rootDir :: comps else comps

/-- The `SecurityConfig` struct (durations in seconds). -/
structure SecurityConfig where
  document_root : PathB
  follow_symlinks : Bool
  max_file_size : Nat
  allowed_extensions : List (List Nat)
  blocked_extensions : List (List Nat)
  drop_to_uid : Option Nat
  drop_to_gid : Option Nat
  keep_alive_timeout : Nat
  keep_alive_max_requests : Nat
  minimum_http_version : HttpVersion

/-- Filesystem oracle for the calls `sanitize_path_with_root` and the
response generators make: `fs::canonicalize` (`none` models an `Err` from the
syscall), existence and regular-file tests, `metadata.len()` (`none` models a
failed `fs::metadata`, which the source silently skips), and the metadata
modification time in unix seconds (`none` models a failed
`metadata.modified()`, which the source silently skips). -/
structure Fs where
  canonicalize : PathB → Option PathB
  pathExists : PathB → Bool
  isFile : PathB → Bool
  metadataLen : PathB → Option Nat
  modifiedSecs : PathB → Option Nat

/-- The component walk of `sanitize_path_with_root` (the `for component in
Path::new(&path).components()` loop): traversal and hidden-file rejection,
root reset, `curDir` skipped, and the wildcard arm (which a `..` component
reaches, since `components()` tags it `ParentDir`, not `Normal`). -/
def walkComponents (document_root : PathB) : List RequestComp → PathB → Except String PathB
  | [], acc => .ok acc
  | RequestComp.normal c :: rest, acc =>
    if c = [46, 46] ∨ containsSeq [46, 46] c then
      .error "Directory traversal attack detected"
    else if c.head? = some 46 ∧ c ≠ [46] ∧ c ≠ [46, 46] then
      .error "Access to hidden files/directories not allowed"
    else
      walkComponents document_root rest (acc ++ [PathComp.normal c])
  | RequestComp.rootDir :: rest, _ =>
    walkComponents document_root rest document_root
  | RequestComp.curDir :: rest, acc =>
    walkComponents document_root rest acc
  | RequestComp.parentDir :: _, _ =>
    .error "Invalid path component"

/-- `Path::extension()` of a file-name component: `none` when there is no
`.`, when the only `.` leads the name, or for the literal `..`; otherwise the
bytes after the final `.`. -/
def extBytes (f : List Nat) : Option (List Nat) :=
  if f = [46, 46] then none
  else
    let revAfter := f.reverse.takeWhile (fun b => b ≠ 46)
    if revAfter.length = f.length then none
    else if revAfter.length + 1 = f.length then none
    else some revAfter.reverse

/-- `Path::extension()` of a whole path: the extension of its last component
when that component is a normal one. -/
def pathExtension (p : PathB) : Option (List Nat) :=
  match p.getLast? with
  | some (PathComp.normal f) => extBytes f
  | _ => none

/-- Bytes of `"index.html"`. -/
def indexHtml : List Nat :=
  asciiBytes "index.html"

/-- The extension restriction tail of `sanitize_path_with_root`. -/
def extensionChecks (cfg : SecurityConfig) (canonical_path : PathB) : Except String PathB :=
  match pathExtension canonical_path with
  | some e =>
    let e := toLowerBytes e
    if cfg.blocked_extensions.contains e then
      .error "File type not allowed"
    else if cfg.allowed_extensions ≠ [] ∧ ¬ cfg.allowed_extensions.contains e then
      .error "File type not in allowed list"
    else
      .ok canonical_path
  | none => .ok canonical_path

/-- The filesystem-facing tail of `sanitize_path_with_root`: root containment,
existence, regular-file, size, and extension checks, in source order. -/
def postCanonical (fs : Fs) (cfg : SecurityConfig) (document_root : PathB)
    (canonical_path : PathB) : Except String PathB :=
  if !(List.isPrefixOf document_root canonical_path) then
    .error "Path outside document root not allowed"
  else if !(fs.pathExists canonical_path) then
    .error "File not found"
  else if !(fs.isFile canonical_path) then
    .error "Path is not a file"
  else
    match fs.metadataLen canonical_path with
    | some len =>
      if len > cfg.max_file_size then .error "File too large"
      else extensionChecks cfg canonical_path
    | none => extensionChecks cfg canonical_path

/-- The `index.html` fallback of `sanitize_path_with_root`: an empty or
root-equal accumulated path gets `index.html` pushed. -/
def indexStep (document_root path_buf : PathB) : PathB :=
  if path_buf = ([] : PathB) ∨ path_buf = document_root then
    path_buf ++ [PathComp.normal indexHtml]
  else path_buf

/-- The canonicalization step of `sanitize_path_with_root`: `fs::canonicalize`
when symlink following is enabled, otherwise the component-by-component
reassembly, which is the identity on the component list. -/
def canonicalizeStep (fs : Fs) (cfg : SecurityConfig) (path_buf : PathB) : Option PathB :=
  if cfg.follow_symlinks then fs.canonicalize path_buf else some path_buf

/-- `SecureFileServer::sanitize_path_with_root`. -/
def sanitize_path_with_root (fs : Fs) (cfg : SecurityConfig) (request_path : List Nat)
    (document_root : PathB) : Except String PathB :=
  match decodeTarget request_path with
  | none => .error "invalid percent-encoded UTF-8 in request path"
  | some bs =>
    match walkComponents document_root (pathComponents bs) [] with
    | .error e => .error e
    | .ok path_buf =>
      match canonicalizeStep fs cfg (indexStep document_root path_buf) with
      | none => .error "canonicalization failed"
      | some canonical_path => postCanonical fs cfg document_root canonical_path

/-- `SecureFileServer::sanitize_path` (the default document root). -/
def sanitize_path (fs : Fs) (cfg : SecurityConfig) (request_path : List Nat) :
    Except String PathB :=
  sanitize_path_with_root fs cfg request_path cfg.document_root

/-- `SecureFileServer::is_extension_allowed`. -/
def is_extension_allowed (cfg : SecurityConfig) (extension : List Nat) : Bool :=
  let e := toLowerBytes extension
  if cfg.blocked_extensions.contains e then false
  else if cfg.allowed_extensions ≠ [] then cfg.allowed_extensions.contains e
  else true

/-- The extension-to-content-type table `MimeTypes::default` inserts. -/
def mimeTypesList : Headers :=
  [ (asciiBytes "html", asciiBytes "text/html; charset=utf-8")
  , (asciiBytes "htm", asciiBytes "text/html; charset=utf-8")
  , (asciiBytes "txt", asciiBytes "text/plain; charset=utf-8")
  , (asciiBytes "css", asciiBytes "text/css; charset=utf-8")
  , (asciiBytes "js", asciiBytes "application/javascript; charset=utf-8")
  , (asciiBytes "mjs", asciiBytes "application/javascript; charset=utf-8")
  , (asciiBytes "wasm", asciiBytes "application/wasm")
  , (asciiBytes "jpg", asciiBytes "image/jpeg")
  , (asciiBytes "jpeg", asciiBytes "image/jpeg")
  , (asciiBytes "png", asciiBytes "image/png")
  , (asciiBytes "gif", asciiBytes "image/gif")
  , (asciiBytes "svg", asciiBytes "image/svg+xml")
  , (asciiBytes "webp", asciiBytes "image/webp")
  , (asciiBytes "ico", asciiBytes "image/x-icon")
  , (asciiBytes "bmp", asciiBytes "image/bmp")
  , (asciiBytes "woff", asciiBytes "font/woff")
  , (asciiBytes "woff2", asciiBytes "font/woff2")
  , (asciiBytes "ttf", asciiBytes "font/ttf")
  , (asciiBytes "otf", asciiBytes "font/otf")
  , (asciiBytes "pdf", asciiBytes "application/pdf")
  , (asciiBytes "json", asciiBytes "application/json; charset=utf-8")
  , (asciiBytes "xml", asciiBytes "application/xml; charset=utf-8")
  , (asciiBytes "zip", asciiBytes "application/zip")
  , (asciiBytes "tar", asciiBytes "application/x-tar")
  , (asciiBytes "gz", asciiBytes "application/gzip")
  , (asciiBytes "tgz", asciiBytes "application/gzip")
  , (asciiBytes "bin", asciiBytes "application/octet-stream") ]

/-- `MimeTypes::get_mime_type`: lowercased-extension lookup with the
`application/octet-stream` default. -/
def get_mime_type (p : PathB) : List Nat :=
  match pathExtension p with
  | some e =>
    match mimeTypesList.find? (fun q => q.1 == toLowerBytes e) with
    | some q => q.2
    | none => asciiBytes "application/octet-stream"
  | none => asciiBytes "application/octet-stream"

/-- Zero-padded two-digit decimal, as `format!("{:02}", n)` yields. -/
def pad2 (n : Nat) : List Nat :=
  if n < 10 then [48, 48 + n] else decimalBytes n

/-- The free function `format_http_date` of this module, transcribed with its
approximations (365-day years, fixed month table) intact; takes the unix
seconds of the `SystemTime`. -/
def format_http_date (timestamp : Nat) : List Nat :=
  let days_since_epoch := timestamp / 86400
  let seconds_today := timestamp % 86400
  let hours := seconds_today / 3600
  let minutes := (seconds_today % 3600) / 60
  let seconds := seconds_today % 60
  let year := 1970 + days_since_epoch / 365
  let day_of_year := days_since_epoch % 365 + 1
  let month : Nat :=
    if day_of_year ≤ 31 then 1
    else if day_of_year ≤ 59 then 2
    else if day_of_year ≤ 90 then 3
    else if day_of_year ≤ 120 then 4
    else if day_of_year ≤ 151 then 5
    else if day_of_year ≤ 181 then 6
    else if day_of_year ≤ 212 then 7
    else if day_of_year ≤ 243 then 8
    else if day_of_year ≤ 273 then 9
    else if day_of_year ≤ 304 then 10
    else if day_of_year ≤ 334 then 11
    else 12
  let monthStart : Nat :=
    match month with
    | 1 => 0
    | 2 => 31
    | 3 => 59
    | 4 => 90
    | 5 => 120
    | 6 => 151
    | 7 => 181
    | 8 => 212
    | 9 => 243
    | 10 => 273
    | 11 => 304
    | 12 => 334
    | _ => 0
  let day_of_month := day_of_year - monthStart
  let dayNames := [asciiBytes "Sun", asciiBytes "Mon", asciiBytes "Tue", asciiBytes "Wed",
    asciiBytes "Thu", asciiBytes "Fri", asciiBytes "Sat"]
  let monthNames := [asciiBytes "Jan", asciiBytes "Feb", asciiBytes "Mar", asciiBytes "Apr",
    asciiBytes "May", asciiBytes "Jun", asciiBytes "Jul", asciiBytes "Aug", asciiBytes "Sep",
    asciiBytes "Oct", asciiBytes "Nov", asciiBytes "Dec"]
  let day_of_week := dayNames.getD (days_since_epoch % 7) []
  let month_name := monthNames.getD (month - 1) []
  day_of_week ++ asciiBytes ", " ++ pad2 day_of_month ++ [32] ++ month_name ++ [32] ++
    decimalBytes year ++ [32] ++ pad2 hours ++ [58] ++ pad2 minutes ++ [58] ++ pad2 seconds ++
    asciiBytes " GMT"

/-- The response-construction part of
`SecureFileServer::generate_http_response_with_version` (everything before
the final `encode`), with the filesystem consulted through the oracle. -/
def buildFileResponse (fs : Fs) (cfg : SecurityConfig) (request_path content : List Nat) :
    Except String HttpResponse :=
  match sanitize_path fs cfg request_path with
  | .error e => .error e
  | .ok file_path =>
    let mime_type := get_mime_type file_path
    let r := HttpResponse.ok content
    let r := r.set_content_type mime_type
    let r := r.set_content_length
    let r :=
      match fs.modifiedSecs file_path with
      | some secs => r.set_last_modified (format_http_date secs)
      | none => r
    let r := r.add_security_headers
    let r :=
      if List.isPrefixOf (asciiBytes "image/") mime_type ∨
          List.isPrefixOf (asciiBytes "text/css") mime_type ∨
          List.isPrefixOf (asciiBytes "application/javascript") mime_type ∨
          List.isPrefixOf (asciiBytes "application/wasm") mime_type then
        r.set_cache_control (asciiBytes "public, max-age=3600")
      else
        r.set_cache_control (asciiBytes "no-cache")
    .ok r

/-- `SecureFileServer::generate_http_response_with_version` (its
`String::from_utf8_lossy` step is left at the byte level). -/
def generate_http_response_with_version (fs : Fs) (cfg : SecurityConfig)
    (request_path content : List Nat) (version : HttpVersion) (keep_alive : Bool) :
    Except String (List Nat) :=
  (buildFileResponse fs cfg request_path content).map (fun r => r.encode version keep_alive)

/-! ### Concrete fixtures used to instantiate the universally quantified
theorems below on explicit inputs. -/

/-- A request-target component that triggers the textual traversal check:
`..` itself (tagged `parentDir` by `components()`) or a normal component with
`..` inside it. -/
def isDotDotComp : RequestComp → Bool
  | RequestComp.parentDir => true
  | RequestComp.normal c => containsSeq [46, 46] c
  | _ => false

/-- A filesystem oracle on which every path exists as a regular file of
unknown size and modification time. -/
def fsW : Fs :=
  { canonicalize := fun p => some p
    pathExists := fun _ => true
    isFile := fun _ => true
    metadataLen := fun _ => none
    modifiedSecs := fun _ => none }

/-- The default document root `/var/www/html` as a component list. -/
def rootW : PathB :=
  [PathComp.rootDir, PathComp.normal (asciiBytes "var"), PathComp.normal (asciiBytes "www"),
    PathComp.normal (asciiBytes "html")]

/-- A configuration with the default document root and no extension policy. -/
def cfgW : SecurityConfig :=
  { document_root := rootW
    follow_symlinks := false
    max_file_size := 10485760
    allowed_extensions := []
    blocked_extensions := []
    drop_to_uid := none
    drop_to_gid := none
    keep_alive_timeout := 5
    keep_alive_max_requests := 100
    minimum_http_version := HttpVersion.http09 }

/-- The response the module's `test_http10_encoding` unit test constructs:
`ok("Hello World")` with content type `text/plain` and `Content-Length`. -/
def respW : HttpResponse :=
  ((HttpResponse.ok (asciiBytes "Hello World")).set_content_type
    (asciiBytes "text/plain")).set_content_length

/-! ## Header-map lemmas -/

theorem lookupHeader_insertHeader_self (hs : Headers) (k v : List Nat) :
    lookupHeader (insertHeader hs k v) k = some v := by
  induction hs with
  | nil => simp [insertHeader, lookupHeader]
  | cons p rest ih =>
    by_cases h : p.1 = k
    · simp [insertHeader, lookupHeader, h, List.find?]
    · have hb : (p.1 == k) = false := beq_eq_false_iff_ne.mpr h
      simpa [insertHeader, lookupHeader, hb, List.find?] using ih

theorem lookupHeader_insertHeader_other (hs : Headers) (k k' v : List Nat) (hne : k' ≠ k) :
    lookupHeader (insertHeader hs k v) k' = lookupHeader hs k' := by
  have hb' : (k == k') = false := beq_eq_false_iff_ne.mpr (Ne.symm hne)
  induction hs with
  | nil => simp [insertHeader, lookupHeader, List.find?, hb']
  | cons p rest ih =>
    by_cases h : p.1 = k
    · have hbp : (p.1 == k') = false := beq_eq_false_iff_ne.mpr (h ▸ Ne.symm hne)
      simp [insertHeader, lookupHeader, h, List.find?, hb', hbp]
    · have hb : (p.1 == k) = false := beq_eq_false_iff_ne.mpr h
      by_cases h2 : p.1 = k'
      · simp [insertHeader, lookupHeader, hb, List.find?, h2, hne]
      · have hbp : (p.1 == k') = false := beq_eq_false_iff_ne.mpr h2
        simpa [insertHeader, lookupHeader, hb, hbp, List.find?] using ih

/-! ## ASCII case-mapping lemmas -/

theorem toLowerBytes_idem (s : List Nat) : toLowerBytes (toLowerBytes s) = toLowerBytes s := by
  simp only [toLowerBytes, List.map_map]
  apply List.map_congr_left
  intro b _
  simp only [Function.comp_apply]
  split_ifs <;> omega

theorem toLowerBytes_no_upper (s : List Nat) :
    ∀ b ∈ toLowerBytes s, ¬(65 ≤ b ∧ b ≤ 90) := by
  intro b hb
  simp only [toLowerBytes, List.mem_map] at hb
  obtain ⟨a, _, rfl⟩ := hb
  split_ifs <;> omega

/-! ## Claims -/

/-- C2: `encode(Http09, keep_alive)` is exactly the body with no status line
and no headers whatever was set; for Http10/Http11 the output is the status
line, one `Name: Value` line per header-map entry, the version's connection
directive (`Connection: close` for Http11 iff not keep-alive,
`Connection: Keep-Alive` for Http10 iff keep-alive), a blank line, then the
body. -/
theorem c2_encode_wire_format (r : HttpResponse) (keep_alive : Bool) :
    r.encode .http09 keep_alive = r.body ∧
    r.encode .http11 keep_alive =
      HttpVersion.http11.statusLinePrefixBytes ++ [32] ++ decimalBytes r.status_code ++ [32] ++
        r.status_text ++ asciiBytes "\r\n" ++
        (r.headers.map (fun p => p.1 ++ asciiBytes ": " ++ p.2 ++ asciiBytes "\r\n")).flatten ++
        (if keep_alive then [] else asciiBytes "Connection: close\r\n") ++
        asciiBytes "\r\n" ++ r.body ∧
    r.encode .http10 keep_alive =
      HttpVersion.http10.statusLinePrefixBytes ++ [32] ++ decimalBytes r.status_code ++ [32] ++
        r.status_text ++ asciiBytes "\r\n" ++
        (r.headers.map (fun p => p.1 ++ asciiBytes ": " ++ p.2 ++ asciiBytes "\r\n")).flatten ++
        (if keep_alive then asciiBytes "Connection: Keep-Alive\r\n" else []) ++
        asciiBytes "\r\n" ++ r.body := by
  refine ⟨rfl, ?_, ?_⟩ <;> cases keep_alive <;> rfl

/-- C3: `should_keep_alive` is true exactly when the request count is below
the policy maximum, the response size is at most 10 MiB, and the per-version
rule holds: never for Http09; for Http10 only with a Connection header whose
lowercased value contains `keep-alive`; for Http11 unless a Connection header
is present whose lowercased value contains `close`. -/
theorem c3_should_keep_alive_iff (p : ConnectionPolicy) (version : HttpVersion)
    (connection_header : Option (List Nat)) (response_size request_count : Nat) :
    p.should_keep_alive version connection_header response_size request_count = true ↔
      (request_count < p.max_requests ∧ response_size ≤ 10 * 1024 * 1024 ∧
        (match version with
         | .http09 => False
         | .http10 => ∃ s, connection_header = some s ∧
             containsSeq (asciiBytes "keep-alive") (toLowerBytes s) = true
         | .http11 => connection_header = none ∨ ∃ s, connection_header = some s ∧
             containsSeq (asciiBytes "close") (toLowerBytes s) = false)) := by
  unfold ConnectionPolicy.should_keep_alive
  cases version <;> cases connection_header <;> split_ifs <;> simp_all

/-- C9: for every `cache_duration_seconds` strictly below `-1` the catch-all
arm of `add_caching_headers` runs: `Last-Modified` and `ETag` are still set
and `Cache-Control` is exactly `no-cache` — neither the `-1` nor the `0`
encoding. -/
theorem c9_add_caching_headers_below_minus_one (r : HttpResponse) (lm et : List Nat)
    (d : Int) (h : d < -1) :
    lookupHeader ((r.add_caching_headers lm et d)).headers (asciiBytes "Last-Modified")
        = some lm ∧
    lookupHeader ((r.add_caching_headers lm et d)).headers (asciiBytes "ETag") = some et ∧
    lookupHeader ((r.add_caching_headers lm et d)).headers (asciiBytes "Cache-Control")
        = some (asciiBytes "no-cache") ∧
    asciiBytes "no-cache" ≠ asciiBytes "public, max-age=31536000, immutable" ∧
    asciiBytes "no-cache" ≠ asciiBytes "no-cache, no-store, must-revalidate" := by
  have h1 : ¬(d = -1) := by omega
  have h2 : ¬(d = 0) := by omega
  have h3 : ¬(d > 0) := by omega
  simp only [HttpResponse.add_caching_headers, if_neg h1, if_neg h2, if_neg h3,
    HttpResponse.set_last_modified, HttpResponse.set_etag, HttpResponse.set_cache_control,
    HttpResponse.set_header]
  refine ⟨?_, ?_, ?_, by decide, by decide⟩
  · rw [lookupHeader_insertHeader_other _ _ _ _ (by decide),
      lookupHeader_insertHeader_other _ _ _ _ (by decide),
      lookupHeader_insertHeader_self]
  · rw [lookupHeader_insertHeader_other _ _ _ _ (by decide),
      lookupHeader_insertHeader_self]
  · rw [lookupHeader_insertHeader_self]

/-- C10: `is_extension_allowed` lowercases its argument before the exact
comparisons against the configured lists, so it is insensitive to the case of
the argument, and a lowercased argument can never equal a configured entry
containing an ASCII uppercase letter. -/
theorem c10_is_extension_allowed_case (cfg : SecurityConfig) (e : List Nat) :
    is_extension_allowed cfg e = is_extension_allowed cfg (toLowerBytes e) ∧
    ∀ entry : List Nat, (∃ b ∈ entry, 65 ≤ b ∧ b ≤ 90) →
      (toLowerBytes e == entry) = false := by
  constructor
  · simp [is_extension_allowed, toLowerBytes_idem]
  · rintro entry ⟨b, hb, hup⟩
    refine beq_eq_false_iff_ne.mpr ?_
    intro hEq
    exact toLowerBytes_no_upper e b (hEq ▸ hb) hup

/-- Witness for C10 at concrete inputs. -/
theorem c10_is_extension_allowed_case_witness :
    is_extension_allowed cfgW (asciiBytes "TXT")
        = is_extension_allowed cfgW (toLowerBytes (asciiBytes "TXT")) ∧
    (toLowerBytes (asciiBytes "exe") == asciiBytes "Exe") = false :=
  ⟨(c10_is_extension_allowed_case cfgW (asciiBytes "TXT")).1,
    (c10_is_extension_allowed_case cfgW (asciiBytes "exe")).2 (asciiBytes "Exe")
      ⟨69, by decide, by decide⟩⟩

/-- Witness for C9 at concrete inputs. -/
theorem c9_add_caching_headers_below_minus_one_witness :
    lookupHeader (((HttpResponse.ok []).add_caching_headers (asciiBytes "lm")
        (asciiBytes "et") (-2))).headers (asciiBytes "Cache-Control")
      = some (asciiBytes "no-cache") :=
  (c9_add_caching_headers_below_minus_one (HttpResponse.ok []) (asciiBytes "lm")
    (asciiBytes "et") (-2) (by norm_num)).2.2.1

/-! ## Decimal rendering lemmas -/

theorem decimalBytesAux_eq_digits (fuel n : Nat) (h : n < fuel) :
    decimalBytesAux fuel n =
      if n = 0 then [48] else (Nat.digits 10 n).reverse.map (fun d => 48 + d) := by
  induction fuel generalizing n with
  | zero => omega
  | succ fuel ih =>
    by_cases h10 : n < 10
    · by_cases h0 : n = 0
      · subst h0; simp [decimalBytesAux]
      · have hd : Nat.digits 10 n = [n] := by
          rw [Nat.digits_def' (by norm_num : 1 < 10) (Nat.pos_of_ne_zero h0)]
          simp [Nat.mod_eq_of_lt h10, Nat.div_eq_of_lt h10]
        simp [decimalBytesAux, h10, h0, hd]
    · have h0 : n ≠ 0 := by omega
      have hdiv0 : n / 10 ≠ 0 := by
        intro hz
        have := (Nat.div_eq_zero_iff (by norm_num : 0 < 10)).mp hz
        omega
      have hlt : n / 10 < fuel := by
        have : n / 10 < n := Nat.div_lt_self (Nat.pos_of_ne_zero h0) (by norm_num)
        omega
      have hstep : decimalBytesAux (fuel + 1) n = decimalBytesAux fuel (n / 10) ++ [48 + n % 10] := by
        simp [decimalBytesAux, h10]
      rw [hstep, ih _ hlt, if_neg hdiv0, if_neg h0,
        Nat.digits_def' (by norm_num : 1 < 10) (Nat.pos_of_ne_zero h0)]
      simp

theorem decimalBytes_eq_digits (n : Nat) :
    decimalBytes n = if n = 0 then [48] else (Nat.digits 10 n).reverse.map (fun d => 48 + d) :=
  decimalBytesAux_eq_digits (n + 1) n (Nat.lt_succ_self n)

theorem mem_decimalBytes (n b : Nat) (h : b ∈ decimalBytes n) : 48 ≤ b ∧ b ≤ 57 := by
  rw [decimalBytes_eq_digits] at h
  split_ifs at h
  · simp at h; omega
  · simp only [List.mem_map, List.mem_reverse] at h
    obtain ⟨d, hd, rfl⟩ := h
    have : d < 10 := Nat.digits_lt_base (by norm_num) hd
    omega

theorem decimalBytes_ne_dash (n : Nat) : 45 ∉ decimalBytes n := by
  intro h
  have := mem_decimalBytes n 45 h
  omega

theorem decimalBytes_inj (m n : Nat) (h : decimalBytes m = decimalBytes n) : m = n := by
  rw [decimalBytes_eq_digits, decimalBytes_eq_digits] at h
  have hinj : Function.Injective (fun d : Nat => 48 + d) := fun a b hab => by simpa using hab
  by_cases hm : m = 0 <;> by_cases hn : n = 0
  · omega
  · exfalso
    rw [if_pos hm, if_neg hn] at h
    have hlen := congrArg List.length h
    simp only [List.length_cons, List.length_nil, List.length_map, List.length_reverse] at hlen
    obtain ⟨d, hd⟩ := List.length_eq_one.mp hlen.symm
    rw [hd] at h
    simp only [List.reverse_cons, List.reverse_nil, List.nil_append, List.map_cons,
      List.map_nil, List.cons.injEq, and_true] at h
    have hd0 : d = 0 := by omega
    have hn0 : n = 0 := by
      have hofd := Nat.ofDigits_digits 10 n
      rw [hd, hd0] at hofd
      simpa [Nat.ofDigits] using hofd.symm
    exact hn hn0
  · exfalso
    rw [if_neg hm, if_pos hn] at h
    have hlen := congrArg List.length h
    simp only [List.length_cons, List.length_nil, List.length_map, List.length_reverse] at hlen
    obtain ⟨d, hd⟩ := List.length_eq_one.mp hlen
    rw [hd] at h
    simp only [List.reverse_cons, List.reverse_nil, List.nil_append, List.map_cons,
      List.map_nil, List.cons.injEq, and_true] at h
    have hd0 : d = 0 := by omega
    have hm0 : m = 0 := by
      have hofd := Nat.ofDigits_digits 10 m
      rw [hd, hd0] at hofd
      simpa [Nat.ofDigits] using hofd.symm
    exact hm hm0
  · rw [if_neg hm, if_neg hn] at h
    have h1 : (Nat.digits 10 m).reverse = (Nat.digits 10 n).reverse :=
      List.map_injective_iff.mpr hinj h
    have h2 : Nat.digits 10 m = Nat.digits 10 n := by
      have := congrArg List.reverse h1
      simpa using this
    calc m = Nat.ofDigits 10 (Nat.digits 10 m) := (Nat.ofDigits_digits 10 m).symm
      _ = Nat.ofDigits 10 (Nat.digits 10 n) := by rw [h2]
      _ = n := Nat.ofDigits_digits 10 n

theorem append_sep_inj {sep : Nat} :
    ∀ a1 a2 b1 b2 : List Nat, sep ∉ a1 → sep ∉ a2 →
      a1 ++ sep :: b1 = a2 ++ sep :: b2 → a1 = a2 ∧ b1 = b2 := by
  intro a1
  induction a1 with
  | nil =>
    intro a2 b1 b2 _ h2 heq
    cases a2 with
    | nil => simpa using heq
    | cons y ys =>
      exfalso
      simp only [List.nil_append, List.cons_append, List.cons.injEq] at heq
      exact h2 (heq.1 ▸ List.mem_cons_self y ys)
  | cons x xs ih =>
    intro a2 b1 b2 h1 h2 heq
    cases a2 with
    | nil =>
      exfalso
      simp only [List.cons_append, List.nil_append, List.cons.injEq] at heq
      exact h1 (heq.1 ▸ List.mem_cons_self x xs)
    | cons y ys =>
      simp only [List.cons_append, List.cons.injEq] at heq
      obtain ⟨hxy, hrest⟩ := heq
      have hr := ih ys b1 b2 (fun hm => h1 (List.mem_cons_of_mem _ hm))
        (fun hm => h2 (List.mem_cons_of_mem _ hm)) hrest
      exact ⟨by rw [hxy, hr.1], hr.2⟩

/-- C4: `from_metadata` renders the etag as `"<mtime>-<size>"` in double
quotes, and the rendering is a deterministic injection: two etags are equal
exactly when both the modification time and the size agree. -/
theorem c4_etag_deterministic_injection (m1 s1 m2 s2 : Nat) :
    (FileCacheInfo.from_metadata m1 s1).etag =
      asciiBytes "\"" ++ decimalBytes m1 ++ asciiBytes "-" ++ decimalBytes s1 ++
        asciiBytes "\"" ∧
    ((FileCacheInfo.from_metadata m1 s1).etag = (FileCacheInfo.from_metadata m2 s2).etag ↔
      (m1 = m2 ∧ s1 = s2)) := by
  refine ⟨rfl, ?_, ?_⟩
  · intro h
    simp only [FileCacheInfo.from_metadata, List.append_assoc, List.singleton_append,
      List.cons_append, List.cons.injEq, List.nil_append, true_and] at h
    obtain ⟨hm, hrest⟩ :=
      append_sep_inj (decimalBytes m1) (decimalBytes m2) _ _
        (decimalBytes_ne_dash m1) (decimalBytes_ne_dash m2) h
    refine ⟨decimalBytes_inj _ _ hm, decimalBytes_inj s1 s2 ?_⟩
    exact List.append_inj_left' hrest rfl
  · rintro ⟨rfl, rfl⟩
    rfl

/-- C5: `should_return_not_modified` is true exactly when the quote-stripped
`If-None-Match` equals the quote-stripped server etag, or the
`If-Modified-Since` value parses as an unsigned 64-bit integer at least the
stored `last_modified`. -/
theorem c5_not_modified_iff (info : FileCacheInfo) (ims inm : Option (List Nat)) :
    should_return_not_modified info ims inm = true ↔
      ((∃ v, inm = some v ∧ trimQuotes v = trimQuotes info.etag) ∨
        (∃ s n, ims = some s ∧ parseU64 s = some n ∧ info.last_modified ≤ n)) := by
  unfold should_return_not_modified
  cases inm with
  | none =>
    cases ims with
    | none => simp
    | some s => cases hp : parseU64 s <;> simp [hp]
  | some v =>
    by_cases hv : trimQuotes v = trimQuotes info.etag
    · simp [hv]
    · have hb : (trimQuotes v == trimQuotes info.etag) = false := beq_eq_false_iff_ne.mpr hv
      cases ims with
      | none => simp [hb, hv]
      | some s => cases hp : parseU64 s <;> simp [hb, hv, hp]

/-- A `...` occurrence contains a `..` occurrence. -/
theorem containsStr_double_of_triple (d : List Char)
    (h : containsStr ['.', '.', '.'] d = true) : containsStr ['.', '.'] d = true := by
  simp only [containsStr, decide_eq_true_eq] at *
  exact List.IsInfix.trans (by decide) h

/-- C6: `is_domain_safe` accepts exactly the strings made of alphanumerics
and dots that contain a dot, neither start nor end with a dot, and contain no
`..`; in particular it accepts `a.b` and rejects `a..b`, `.a.b`, `nodot` and
`a.b/c`. -/
theorem c6_is_domain_safe_iff (d : List Char) :
    (is_domain_safe d = true ↔
      ((∀ c ∈ d, c.isAlphanum = true ∨ c = '.') ∧ '.' ∈ d ∧ d.head? ≠ some '.' ∧
        d.getLast? ≠ some '.' ∧ containsStr ['.', '.'] d = false)) ∧
    is_domain_safe "a.b".toList = true ∧ is_domain_safe "a..b".toList = false ∧
    is_domain_safe ".a.b".toList = false ∧ is_domain_safe "nodot".toList = false ∧
    is_domain_safe "a.b/c".toList = false := by
  refine ⟨?_, by decide, by decide, by decide, by decide, by decide⟩
  unfold is_domain_safe
  constructor
  · intro h
    split_ifs at h with h1 h2 h3 h4 h5
    refine ⟨?_, ?_, ?_, ?_, ?_⟩
    · intro c hc
      have h1' : ∀ x ∈ d, x.isAlphanum = false → x = '.' := by simpa using h1
      by_cases hA : c.isAlphanum = true
      · exact Or.inl hA
      · exact Or.inr (h1' c hc (by simpa using hA))
    · have h3' : d.contains '.' = true := by simpa using h3
      simpa using h3'
    · intro hh
      apply h4
      simp [hh]
    · intro hh
      apply h4
      simp [hh]
    · simpa using h2
  · rintro ⟨hall, hdot, hhead, hlast, hdd⟩
    split_ifs with h1 h2 h3 h4 h5
    · exfalso
      have h1' : ∃ x ∈ d, x.isAlphanum = false ∧ ¬x = '.' := by simpa using h1
      obtain ⟨x, hx, hA, hD⟩ := h1'
      rcases hall x hx with hT | hE
      · rw [hT] at hA
        cases hA
      · exact hD hE
    · exact absurd h2 (by simp [hdd])
    · exfalso
      have h3' : ¬('.' ∈ d) := by simpa using h3
      exact h3' hdot
    · exfalso
      rcases Bool.or_eq_true _ _ |>.mp h4 with hh | hh
      · exact hhead (by simpa using hh)
      · exact hlast (by simpa using hh)
    · exact absurd (containsStr_double_of_triple d h5) (by simp [hdd])
    · rfl

/-! ## Path-sanitization lemmas -/

theorem walkComponents_error_of_dotdot (root : PathB) :
    ∀ (comps : List RequestComp) (acc : PathB),
      (∃ c ∈ comps, isDotDotComp c = true) →
      ∃ e, walkComponents root comps acc = .error e := by
  intro comps
  induction comps with
  | nil =>
    rintro acc ⟨c, hc, _⟩
    simp at hc
  | cons head rest ih =>
    rintro acc ⟨c, hc, hdd⟩
    cases head with
    | parentDir => exact ⟨_, rfl⟩
    | rootDir =>
      rcases List.mem_cons.mp hc with rfl | hmem
      · simp [isDotDotComp] at hdd
      · simpa [walkComponents] using ih root ⟨c, hmem, hdd⟩
    | curDir =>
      rcases List.mem_cons.mp hc with rfl | hmem
      · simp [isDotDotComp] at hdd
      · simpa [walkComponents] using ih acc ⟨c, hmem, hdd⟩
    | normal b =>
      by_cases hb1 : b = [46, 46]
      · exact ⟨"Directory traversal attack detected", by simp [walkComponents, hb1]⟩
      · by_cases hb2 : containsSeq [46, 46] b = true
        · exact ⟨"Directory traversal attack detected", by simp [walkComponents, hb2]⟩
        · rcases List.mem_cons.mp hc with rfl | hmem
          · exact absurd (by simpa [isDotDotComp] using hdd) hb2
          · by_cases hhid : b.head? = some 46 ∧ b ≠ [46] ∧ b ≠ [46, 46]
            · exact ⟨"Access to hidden files/directories not allowed",
                by simp [walkComponents, hb1, hb2, hhid.1, hhid.2.1]⟩
            · have hhid' : ¬(b.head? = some 46 ∧ ¬b = [46]) := fun hx =>
                hhid ⟨hx.1, hx.2, hb1⟩
              simpa [walkComponents, hb1, hb2, hhid'] using
                ih (acc ++ [PathComp.normal b]) ⟨c, hmem, hdd⟩

theorem extensionChecks_ok (cfg : SecurityConfig) (p q : PathB)
    (h : extensionChecks cfg p = .ok q) : q = p := by
  simp only [extensionChecks] at h
  split at h
  · split_ifs at h <;> simp_all
  · simp_all

theorem postCanonical_ok (fs : Fs) (cfg : SecurityConfig) (root p q : PathB)
    (h : postCanonical fs cfg root p = .ok q) :
    List.isPrefixOf root p = true ∧ q = p := by
  unfold postCanonical at h
  split_ifs at h with h1 h2 h3 <;> try contradiction
  case _ =>
    have h1' : List.isPrefixOf root p = true := by
      by_contra hfalse
      refine h1 ?_
      cases hx : List.isPrefixOf root p
      · rfl
      · exact absurd hx hfalse
    refine ⟨h1', ?_⟩
    split at h
    · split_ifs at h <;> try contradiction
      case _ => exact extensionChecks_ok cfg p q h
    · exact extensionChecks_ok cfg p q h

theorem sanitize_ok_under_root (fs : Fs) (cfg : SecurityConfig) (request_path : List Nat)
    (root p : PathB) (h : sanitize_path_with_root fs cfg request_path root = .ok p) :
    List.isPrefixOf root p = true := by
  unfold sanitize_path_with_root at h
  split at h
  · simp at h
  · split at h
    · simp at h
    · split at h
      · simp at h
      · obtain ⟨hpre, hqp⟩ := postCanonical_ok _ _ _ _ _ h
        rw [hqp]
        exact hpre

/-- C1: for every request target whose decoded form has a `..` path
component — the literal `..` (tagged `ParentDir`) or any normal component
containing `..`, arriving raw or percent-encoded since decoding precedes the
walk — `sanitize_path_with_root` returns an error that does not depend on the
filesystem oracle (so the rejection is purely textual, before any
canonicalization); and for every request target and every filesystem, an `Ok`
result always has the given document root as a component prefix. -/
theorem c1_sanitize_rejects_dotdot_and_stays_under_root (cfg : SecurityConfig)
    (document_root : PathB) (request_path : List Nat) :
    ((∃ bs, decodeTarget request_path = some bs ∧
        ∃ c ∈ pathComponents bs, isDotDotComp c = true) →
      ∃ e, ∀ fs : Fs,
        sanitize_path_with_root fs cfg request_path document_root = .error e) ∧
    (∀ (fs : Fs) (p : PathB),
      sanitize_path_with_root fs cfg request_path document_root = .ok p →
      List.isPrefixOf document_root p = true) := by
  constructor
  · rintro ⟨bs, hdec, hc⟩
    obtain ⟨e, he⟩ := walkComponents_error_of_dotdot document_root (pathComponents bs) [] hc
    exact ⟨e, fun fs => by simp only [sanitize_path_with_root, hdec, he]⟩
  · intro fs p h
    exact sanitize_ok_under_root fs cfg request_path document_root p h

/-- Witness for C1: the percent-encoded traversal `/%2e%2e/etc/passwd` is
rejected independently of the filesystem, and a concrete accepted request
resolves under the document root. -/
theorem c1_sanitize_rejects_dotdot_and_stays_under_root_witness :
    (∃ e, ∀ fs : Fs,
      sanitize_path_with_root fs cfgW (asciiBytes "/%2e%2e/etc/passwd") rootW = .error e) ∧
    List.isPrefixOf rootW (rootW ++ [PathComp.normal (asciiBytes "a.txt")]) = true :=
  ⟨(c1_sanitize_rejects_dotdot_and_stays_under_root cfgW rootW
      (asciiBytes "/%2e%2e/etc/passwd")).1
      ⟨asciiBytes "/../etc/passwd", by decide, RequestComp.parentDir, by decide, by decide⟩,
    (c1_sanitize_rejects_dotdot_and_stays_under_root cfgW rootW (asciiBytes "/a.txt")).2 fsW
      (rootW ++ [PathComp.normal (asciiBytes "a.txt")]) (by decide)⟩

/-- C7 evaluation: the response of the module's `test_http10_encoding` test
encodes to the claimed bytes when the header map happens to iterate in
insertion order, but a permutation of the same header entries — equally
possible for the seed-randomized `std::collections::HashMap` — encodes to
different bytes, so the claimed output is not guaranteed by the code. -/
theorem c7_header_order_not_deterministic :
    List.Perm ({ respW with headers := respW.headers.reverse } : HttpResponse).headers
      respW.headers ∧
    respW.encode .http10 false =
      asciiBytes
        "HTTP/1.0 200 OK\r\nContent-Type: text/plain\r\nContent-Length: 11\r\n\r\nHello World" ∧
    ({ respW with headers := respW.headers.reverse } : HttpResponse).encode .http10 false ≠
      asciiBytes
        "HTTP/1.0 200 OK\r\nContent-Type: text/plain\r\nContent-Length: 11\r\n\r\nHello World" :=
  ⟨List.reverse_perm _, by decide, by decide⟩

/-- C8 counterexample: serving `style.css` through
`generate_http_response_with_version` emits `Cache-Control: public,
max-age=3600`, not the 1-year value `get_cache_duration` assigns to
`text/css` — the duration table is not consulted on this path. -/
theorem c8_css_cache_control_not_one_year :
    (buildFileResponse fsW cfgW (asciiBytes "/style.css") (asciiBytes "body")).map
        (fun r => lookupHeader r.headers (asciiBytes "Cache-Control")) =
      .ok (some (asciiBytes "public, max-age=3600")) ∧
    (buildFileResponse fsW cfgW (asciiBytes "/style.css") (asciiBytes "body")).map
        (fun r => lookupHeader r.headers (asciiBytes "Content-Type")) =
      .ok (some (asciiBytes "text/css; charset=utf-8")) ∧
    FileCacheInfo.get_cache_duration (asciiBytes "text/css; charset=utf-8") = 31536000 ∧
    asciiBytes "public, max-age=3600" ≠ asciiBytes "public, max-age=31536000" :=
  ⟨by decide, by decide, by decide, by decide⟩

/-- C8 (amended): a file whose MIME classification starts with `text/css`,
served through the response-generation path, gets `Content-Type` set to that
classification and `Cache-Control: public, max-age=3600` (the flat
static-asset value of this path, not the duration table's 1-year bucket). -/
theorem c8_css_served_flat_hour_cache (fs : Fs) (cfg : SecurityConfig)
    (request_path content : List Nat) (file_path : PathB)
    (hs : sanitize_path fs cfg request_path = .ok file_path)
    (hcss : List.isPrefixOf (asciiBytes "text/css") (get_mime_type file_path) = true) :
    ∃ r, buildFileResponse fs cfg request_path content = .ok r ∧
      lookupHeader r.headers (asciiBytes "Content-Type") = some (get_mime_type file_path) ∧
      lookupHeader r.headers (asciiBytes "Cache-Control")
        = some (asciiBytes "public, max-age=3600") := by
  simp only [buildFileResponse, hs, if_pos (Or.inr (Or.inl hcss))]
  cases hms : fs.modifiedSecs file_path with
  | none =>
    refine ⟨_, rfl, ?_, ?_⟩ <;>
      simp only [HttpResponse.ok, HttpResponse.new, HttpResponse.set_content_type,
        HttpResponse.set_content_length, HttpResponse.set_cache_control,
        HttpResponse.add_security_headers, HttpResponse.set_header]
    · rw [lookupHeader_insertHeader_other _ _ _ _ (by decide),
        lookupHeader_insertHeader_other _ _ _ _ (by decide),
        lookupHeader_insertHeader_other _ _ _ _ (by decide),
        lookupHeader_insertHeader_other _ _ _ _ (by decide),
        lookupHeader_insertHeader_other _ _ _ _ (by decide),
        lookupHeader_insertHeader_other _ _ _ _ (by decide),
        lookupHeader_insertHeader_self]
    · rw [lookupHeader_insertHeader_self]
  | some secs =>
    refine ⟨_, rfl, ?_, ?_⟩ <;>
      simp only [HttpResponse.ok, HttpResponse.new, HttpResponse.set_content_type,
        HttpResponse.set_content_length, HttpResponse.set_cache_control,
        HttpResponse.set_last_modified, HttpResponse.add_security_headers,
        HttpResponse.set_header]
    · rw [lookupHeader_insertHeader_other _ _ _ _ (by decide),
        lookupHeader_insertHeader_other _ _ _ _ (by decide),
        lookupHeader_insertHeader_other _ _ _ _ (by decide),
        lookupHeader_insertHeader_other _ _ _ _ (by decide),
        lookupHeader_insertHeader_other _ _ _ _ (by decide),
        lookupHeader_insertHeader_other _ _ _ _ (by decide),
        lookupHeader_insertHeader_other _ _ _ _ (by decide),
        lookupHeader_insertHeader_self]
    · rw [lookupHeader_insertHeader_self]

/-- Witness for the amended C8 at concrete inputs. -/
theorem c8_css_served_flat_hour_cache_witness :
    ∃ r, buildFileResponse fsW cfgW (asciiBytes "/style.css") (asciiBytes "body") = .ok r ∧
      lookupHeader r.headers (asciiBytes "Content-Type")
        = some (get_mime_type (rootW ++ [PathComp.normal (asciiBytes "style.css")])) ∧
      lookupHeader r.headers (asciiBytes "Cache-Control")
        = some (asciiBytes "public, max-age=3600") :=
  c8_css_served_flat_hour_cache fsW cfgW (asciiBytes "/style.css") (asciiBytes "body")
    (rootW ++ [PathComp.normal (asciiBytes "style.css")]) (by decide) (by decide)

end EasyP
